import Mathlib

/-!
Shallow embedding of `src/slurm_tuner/slurm_handler.py` (`create_objective` /
`objective`) together with the pieces of its environment the objective
interacts with: the optimizer's suggestion capability, the scheduler commands
(`sbatch` / `scancel`), the pruning oracle (`trial.report` /
`trial.should_prune`), and the shared results store read by the polling loop.

Conventions of the embedding:
- machine side effects are made explicit: the sequence of suggestion calls,
  the submission commands executed, the cancel commands executed, the values
  reported to the pruning oracle, and the poll cycles at which the results
  store was read are all returned as traces;
- the results store is a snapshot function `Nat → List Row`: the n-th read of
  the CSV file in the polling loop observes snapshot n (pandas `read_csv`
  re-reads the whole file each cycle);
- Python exceptions become explicit error values (`EngineError`), including
  the `RuntimeError` from the bare `raise` on an invalid parameter type, the
  re-raised `CalledProcessError` of a failed submission, the `AttributeError`
  from `match.group(1)` when `re.search` returns `None`, and
  `optuna.TrialPruned`;
- unbounded `while` loops take a fuel argument; exhausting fuel yields the
  distinguished result `running` (the loop would still be polling).
-/

namespace SlurmTuner

/-- One record of the results CSV: at least the columns `trial` and `step`
(with −1 the terminal sentinel), plus whatever metric columns the `Loss`
capability consumes, abstracted here into a single rational `value`. -/
structure Row where
  trial : Int
  step : Int
  value : ℚ
  deriving DecidableEq, Repr

/-- The three suggestion methods of the optimizer consumed by the engine:
`trial.suggest_int`, `trial.suggest_float`, `trial.suggest_categorical`. -/
inductive SuggestMethod where
  | int
  | float
  | categorical
  deriving DecidableEq, Repr

/-- One entry of `trial_param_types`: parameter name, declared type string,
and the positional / keyword sampling arguments (kept abstract as strings). -/
structure ParamSpecEntry where
  name : String
  argType : String
  args : List String
  kwargs : List (String × String)
  deriving DecidableEq, Repr

/-- One call actually made against the optimizer's suggestion capability:
which method was dispatched and with which name and arguments. -/
structure SuggestCall where
  method : SuggestMethod
  name : String
  args : List String
  kwargs : List (String × String)
  deriving DecidableEq, Repr

/-- The `param_methods` dictionary of the source:
`{'int': trial.suggest_int, 'float': trial.suggest_float, 'categorial': trial.suggest_categorical}`.
Note the source's literal key `'categorial'`. -/
def methodFor (argType : String) : Option SuggestMethod :=
  if argType = "int" then some .int
  else if argType = "float" then some .float
  else if argType = "categorial" then some .categorical
  else none

/-- Build the suggestion call for one entry once its method is resolved:
`param_methods[arg_type](param_name, *args, **kwargs)`. -/
def mkSuggestCall (e : ParamSpecEntry) (m : SuggestMethod) : SuggestCall :=
  ⟨m, e.name, e.args, e.kwargs⟩

/-- The parameter-resolution loop of `objective`:
`for param_name, (arg_type, args, kwargs) in trial_param_types.items(): ...`.
`sugg` is the optimizer's suggestion capability (what value a call returns).
Returns the suggestion calls performed (in order) and either the resolved
`trial_params` association list or the bad type string on which the bare
`raise` fired. Entries after the first invalid one are never sampled. -/
def resolveParams {V : Type} (sugg : SuggestCall → V) :
    List ParamSpecEntry → List SuggestCall × Except String (List (String × V))
  | [] => ([], .ok [])
  | e :: rest =>
    match methodFor e.argType with
    | some m =>
      let call := mkSuggestCall e m
      let r := resolveParams sugg rest
      (call :: r.1, r.2.map (fun ps => (e.name, sugg call) :: ps))
    | none => ([], .error e.argType)

/-- Result of running one external command through `subprocess.run`:
whether it exited zero and its captured standard output. -/
structure CmdResult where
  exitZero : Bool
  stdout : String
  deriving DecidableEq, Repr

/-- The literal text of the submission-acceptance regex before the capture
group: `Submitted batch job `. -/
def submitMarker : List Char := "Submitted batch job ".toList

/-- Decimal digits to a natural number, as `int(...)` on a digit string. -/
def natOfDigits : List Char → Nat → Nat
  | [], acc => acc
  | c :: cs, acc => natOfDigits cs (acc * 10 + (c.toNat - '0'.toNat))

/-- Try to match the source's regex `Submitted batch job (\d+)\n` at the head
of `s`: the literal marker, then a maximal nonempty digit run, then a
newline immediately after the digits (the regex is greedy, so the capture is
the maximal run and the character after it must be `'\n'`). -/
def matchSubmitAt (s : List Char) : Option Nat :=
  if submitMarker.isPrefixOf s then
    let rest := s.drop submitMarker.length
    let ds := rest.takeWhile Char.isDigit
    match ds, rest.drop ds.length with
    | [], _ => none
    | _ :: _, '\n' :: _ => some (natOfDigits ds 0)
    | _ :: _, _ => none
  else none

/-- `re.search(r'Submitted batch job (\d+)\n', stdout)` followed by
`int(match.group(1))`: leftmost match wins; `none` models `re.search`
returning `None`. -/
def searchSubmit : List Char → Option Nat
  | [] => none
  | c :: cs =>
    match matchSubmitAt (c :: cs) with
    | some n => some n
    | none => searchSubmit cs

/-- Modelled from the spec: section 6 states the submission response contract
as the pattern `Submitted batch job (\d+)` with no trailing newline. This is
the spec's variant of `matchSubmitAt`, used only to compare the spec's
contract with the source's regex. -/
def matchSubmitAtSpec (s : List Char) : Option Nat :=
  if submitMarker.isPrefixOf s then
    let ds := (s.drop submitMarker.length).takeWhile Char.isDigit
    match ds with
    | [] => none
    | _ :: _ => some (natOfDigits ds 0)
  else none

/-- Modelled from the spec: leftmost search for the spec's newline-free
pattern `Submitted batch job (\d+)`. -/
def searchSubmitSpec : List Char → Option Nat
  | [] => none
  | c :: cs =>
    match matchSubmitAtSpec (c :: cs) with
    | some n => some n
    | none => searchSubmitSpec cs

/-- The exceptions the objective can raise. -/
inductive EngineError where
  | invalidParamType (t : String)
  | submissionProcessError
  | matchNoneAttributeError
  | trialPruned
  deriving DecidableEq, Repr

/-- Outcome of one objective evaluation: a returned loss value, a raised
exception, or (fuel exhausted) the loop is still polling. -/
inductive ObjResult where
  | ok (v : ℚ)
  | err (e : EngineError)
  | running
  deriving DecidableEq, Repr

/-- `losses.mean()` on a pandas series: sum divided by length. -/
def listMean (l : List ℚ) : ℚ := l.sum / l.length

/-- Immutable context of the polling loop: the pieces fixed once submission
has succeeded. `params` is `trial.params`, `jobId` the captured job
identifier, `shouldPrune` the pruning oracle as a function of the whole
report history (`trial.report` then `trial.should_prune`). -/
structure PollCtx (V : Type) where
  loss : Row → List (String × V) → ℚ
  params : List (String × V)
  trialId : Nat
  jobId : Nat
  shouldPrune : List (ℚ × Nat) → Bool
  avgOnPrune : Bool
  logTrialId : Bool
  store : Nat → List Row

/-- `df[df['trial'] == trial_id]` for the snapshot read at `cycle`. -/
def trialRowsOf {V : Type} (ctx : PollCtx V) (cycle : Nat) : List Row :=
  (ctx.store cycle).filter (fun r => r.trial == (ctx.trialId : Int))

/-- `trial_data[trial_data['step'] == current_step]`. -/
def stepRowsOf {V : Type} (ctx : PollCtx V) (cycle curStep : Nat) : List Row :=
  (trialRowsOf ctx cycle).filter (fun r => r.step == (curStep : Int))

/-- `trial_data[trial_data['step'] == -1]`. -/
def termRowsOf {V : Type} (ctx : PollCtx V) (cycle : Nat) : List Row :=
  (trialRowsOf ctx cycle).filter (fun r => r.step == (-1 : Int))

/-- Everything the polling loop produces: its result and the traces of
oracle reports, cancel commands executed, cancellation log lines, and the
store snapshots read. -/
structure PollOutcome where
  result : ObjResult
  reports : List (ℚ × Nat)
  cancels : List String
  logs : List String
  reads : List Nat
  deriving DecidableEq, Repr

/-- The `while True` polling loop of `objective` (`current_step = 0` at
entry). Per cycle: read the store, filter the trial's rows, and race the
current step against the terminal sentinel. Neither present: sleep and poll
the next snapshot. Terminal present: return `loss(termination_data.iloc[0],
trial.params)`. Otherwise the step row is present: compute the intermediate
value from `step_data.iloc[0]`, report it under the configured key, ask the
oracle; on prune run `scancel job_id` (a non-zero exit, `cancelExitZero =
false`, is caught and logged), then in the `finally` block either return the
mean of `loss` over `step_data` (average-on-prune) or raise `TrialPruned`;
on continue advance the step. Fuel 0 means the loop is still running. -/
def pollLoop {V : Type} (ctx : PollCtx V) (cancelExitZero : Bool) :
    Nat → Nat → Nat → List (ℚ × Nat) → List String → List String → List Nat → PollOutcome
  | 0, _, _, reports, cancels, logs, reads => ⟨.running, reports, cancels, logs, reads⟩
  | fuel + 1, cycle, curStep, reports, cancels, logs, reads =>
    let stepData := stepRowsOf ctx cycle curStep
    let terminationData := termRowsOf ctx cycle
    let reads' := reads ++ [cycle]
    if stepData.isEmpty && terminationData.isEmpty then
      pollLoop ctx cancelExitZero fuel (cycle + 1) curStep reports cancels logs reads'
    else
      match terminationData.head? with
      | some rowData => ⟨.ok (ctx.loss rowData ctx.params), reports, cancels, logs, reads'⟩
      | none =>
        match stepData.head? with
        | some rowData =>
          let intermediateValue := ctx.loss rowData ctx.params
          let key := if ctx.logTrialId then ctx.trialId else curStep
          let reports' := reports ++ [(intermediateValue, key)]
          if ctx.shouldPrune reports' then
            let cancels' := cancels ++ ["scancel " ++ toString ctx.jobId]
            let logs' := logs ++ [if cancelExitZero then "cancel-ok" else "cancel-error"]
            if ctx.avgOnPrune then
              ⟨.ok (listMean (stepData.map (fun r => ctx.loss r ctx.params))),
                reports', cancels', logs', reads'⟩
            else
              ⟨.err .trialPruned, reports', cancels', logs', reads'⟩
          else
            pollLoop ctx cancelExitZero fuel (cycle + 1) (curStep + 1) reports' cancels logs reads'
        | none => ⟨.running, reports, cancels, logs, reads'⟩

/-- Static configuration captured by `create_objective`. -/
structure EngineConfig where
  slurmScript : String
  resultsPath : String
  returnAverageOnPrune : Bool
  logTrialIdWithIntermediate : Bool

/-- The submission command string:
`f'sbatch {slurm_script} {results_path} {trial_id} {" ".join(str(v) for v in trial_params.values())}'`. -/
def sbatchCommand (cfg : EngineConfig) (trialId : Nat) (vals : List String) : String :=
  "sbatch " ++ cfg.slurmScript ++ " " ++ cfg.resultsPath ++ " " ++ toString trialId
    ++ " " ++ String.intercalate " " vals

/-- Outcome of one full `objective` call with all its observable traces. -/
structure ObjOutcome where
  result : ObjResult
  suggestCalls : List SuggestCall
  submissions : List String
  reports : List (ℚ × Nat)
  cancels : List String
  logs : List String
  reads : List Nat
  deriving DecidableEq, Repr

/-- The full `objective(trial)` body: resolve the parameter spec (raising on
an invalid type before any command is built), render and run the `sbatch`
command (`check=True`: a non-zero exit raises `CalledProcessError`, re-raised
after logging; an unmatched acceptance regex raises `AttributeError` at
`match.group(1)`), then enter the polling loop with the captured job
identifier. `showV` is Python's `str` on suggested values; `runCmd` the
external scheduler; `fuel` bounds the observed poll cycles. -/
def objective {V : Type} (cfg : EngineConfig)
    (loss : Row → List (String × V) → ℚ)
    (entries : List ParamSpecEntry) (sugg : SuggestCall → V) (showV : V → String)
    (runCmd : String → CmdResult) (shouldPrune : List (ℚ × Nat) → Bool)
    (cancelExitZero : Bool) (store : Nat → List Row)
    (trialId : Nat) (fuel : Nat) : ObjOutcome :=
  match resolveParams sugg entries with
  | (calls, .error t) => ⟨.err (.invalidParamType t), calls, [], [], [], [], []⟩
  | (calls, .ok ps) =>
    let cmd := sbatchCommand cfg trialId (ps.map (fun p => showV p.2))
    let out := runCmd cmd
    if out.exitZero then
      match searchSubmit out.stdout.toList with
      | some jobId =>
        let ctx : PollCtx V :=
          ⟨loss, ps, trialId, jobId, shouldPrune,
            cfg.returnAverageOnPrune, cfg.logTrialIdWithIntermediate, store⟩
        let po := pollLoop ctx cancelExitZero fuel 0 0 [] [] [] []
        ⟨po.result, calls, [cmd], po.reports, po.cancels, po.logs, po.reads⟩
      | none => ⟨.err .matchNoneAttributeError, calls, [cmd], [], [], [], []⟩
    else ⟨.err .submissionProcessError, calls, [cmd], [], [], [], []⟩

/-! Concrete instantiations used to evaluate the embedding on the spec's
scenarios. -/

/-- Loss capability that reads the row's metric value, ignoring parameters. -/
def lossValue : Row → List (String × ℚ) → ℚ := fun r _ => r.value

/-- Suggestion capability returning 0 for every call. -/
def suggZero : SuggestCall → ℚ := fun _ => 0

/-- Pruning oracle that never prunes. -/
def neverPrune : List (ℚ × Nat) → Bool := fun _ => false

/-- Pruning oracle that prunes at the first opportunity. -/
def pruneNow : List (ℚ × Nat) → Bool := fun _ => true

/-- Pruning oracle that prunes exactly when two intermediate values have
been reported, i.e. at step 1. -/
def pruneAtSecondReport : List (ℚ × Nat) → Bool := fun rs => rs.length == 2

/-- The spec's precedence scenario: trial 7, a step-0 row (metric 0.9) and a
terminal row (metric 0.2) both present at every poll. -/
def storeTrial7 : Nat → List Row := fun _ => [⟨7, 0, mkRat 9 10⟩, ⟨7, -1, mkRat 1 5⟩]

/-- Polling context for the precedence scenario. -/
def ctxTrial7 : PollCtx ℚ := ⟨lossValue, [], 7, 42, neverPrune, false, false, storeTrial7⟩

/-- The spec's average-on-prune scenario: trial 3, intermediate losses 0.5
at step 0 and 0.3 at step 1. -/
def storeTrial3 : Nat → List Row := fun _ => [⟨3, 0, mkRat 1 2⟩, ⟨3, 1, mkRat 3 10⟩]

/-- Polling context for the average-on-prune scenario: prune at step 1,
`return_average_on_prune` enabled. -/
def ctxTrial3 : PollCtx ℚ := ⟨lossValue, [], 3, 42, pruneAtSecondReport, true, false, storeTrial3⟩

/-- A store holding only a terminal row for trial 5. -/
def storeTerm5 : Nat → List Row := fun _ => [⟨5, -1, 7⟩]

/-- Polling context waiting on trial 5's terminal row. -/
def ctxTerm5 : PollCtx ℚ := ⟨lossValue, [], 5, 9, neverPrune, false, false, storeTerm5⟩

/-- A store with two terminal rows for trial 4 (duplicate (trial, step)
keys, violating the spec's at-most-one invariant). -/
def storeDupTerm : Nat → List Row := fun _ => [⟨4, -1, 2⟩, ⟨4, -1, 5⟩]

/-- Polling context over the duplicate-terminal store. -/
def ctxDupTerm : PollCtx ℚ := ⟨lossValue, [], 4, 11, neverPrune, false, false, storeDupTerm⟩

/-- A store with two rows for trial 4 at step 0 (duplicate keys). -/
def storeDupStep : Nat → List Row := fun _ => [⟨4, 0, 7⟩, ⟨4, 0, 9⟩]

/-- Polling context over the duplicate-step store. -/
def ctxDupStep : PollCtx ℚ := ⟨lossValue, [], 4, 11, neverPrune, false, false, storeDupStep⟩

/-- A store with a single step-0 row for trial 2. -/
def storeStep0 : Nat → List Row := fun _ => [⟨2, 0, 3⟩]

/-- Polling context that prunes immediately with average-on-prune enabled. -/
def ctxPrune : PollCtx ℚ := ⟨lossValue, [], 2, 77, pruneNow, true, false, storeStep0⟩

/-- An engine configuration with both optional flags off. -/
def cfgPlain : EngineConfig := ⟨"test.submit", "results.csv", false, false⟩

/-- Submission output that contains the spec's acceptance pattern
`Submitted batch job (\d+)` but lacks the trailing newline the source's
regex demands. -/
def stdoutNoNewline : String := "Submitted batch job 123"

/-! Branch equations of the polling loop, one per control path of the
source's `while True` body. -/

/-- Neither the current step nor the terminal sentinel has a row: sleep and
poll the next snapshot at the same step. -/
theorem pollLoop_sleep {V : Type} (ctx : PollCtx V) (ce : Bool)
    (fuel cycle curStep : Nat) (reports : List (ℚ × Nat)) (cancels logs : List String)
    (reads : List Nat)
    (hstep : stepRowsOf ctx cycle curStep = [])
    (hterm : termRowsOf ctx cycle = []) :
    pollLoop ctx ce (fuel + 1) cycle curStep reports cancels logs reads
      = pollLoop ctx ce fuel (cycle + 1) curStep reports cancels logs (reads ++ [cycle]) := by
  simp [pollLoop, hstep, hterm]

/-- A terminal row is present: return the loss of the first one; nothing is
reported and no command is run on this cycle. -/
theorem pollLoop_term_eq {V : Type} (ctx : PollCtx V) (ce : Bool)
    (fuel cycle curStep : Nat) (reports : List (ℚ × Nat)) (cancels logs : List String)
    (reads : List Nat) (r : Row) (rest : List Row)
    (hterm : termRowsOf ctx cycle = r :: rest) :
    pollLoop ctx ce (fuel + 1) cycle curStep reports cancels logs reads
      = ⟨.ok (ctx.loss r ctx.params), reports, cancels, logs, reads ++ [cycle]⟩ := by
  simp [pollLoop, hterm]

/-- Only the current step's row is present and the oracle does not prune:
report the first row's loss and continue at the next step. -/
theorem pollLoop_step_continue {V : Type} (ctx : PollCtx V) (ce : Bool)
    (fuel cycle curStep : Nat) (reports : List (ℚ × Nat)) (cancels logs : List String)
    (reads : List Nat) (s : Row) (srest : List Row)
    (hterm : termRowsOf ctx cycle = [])
    (hstep : stepRowsOf ctx cycle curStep = s :: srest)
    (hp : ctx.shouldPrune (reports
        ++ [(ctx.loss s ctx.params, if ctx.logTrialId then ctx.trialId else curStep)]) = false) :
    pollLoop ctx ce (fuel + 1) cycle curStep reports cancels logs reads
      = pollLoop ctx ce fuel (cycle + 1) (curStep + 1)
          (reports ++ [(ctx.loss s ctx.params, if ctx.logTrialId then ctx.trialId else curStep)])
          cancels logs (reads ++ [cycle]) := by
  simp [pollLoop, hterm, hstep, hp]

/-- Prune with `return_average_on_prune`: cancel the job, log the cancel
outcome, and return the mean of `loss` over the current step's rows. -/
theorem pollLoop_step_prune_avg {V : Type} (ctx : PollCtx V) (ce : Bool)
    (fuel cycle curStep : Nat) (reports : List (ℚ × Nat)) (cancels logs : List String)
    (reads : List Nat) (s : Row) (srest : List Row)
    (hterm : termRowsOf ctx cycle = [])
    (hstep : stepRowsOf ctx cycle curStep = s :: srest)
    (hp : ctx.shouldPrune (reports
        ++ [(ctx.loss s ctx.params, if ctx.logTrialId then ctx.trialId else curStep)]) = true)
    (ha : ctx.avgOnPrune = true) :
    pollLoop ctx ce (fuel + 1) cycle curStep reports cancels logs reads
      = ⟨.ok (listMean ((s :: srest).map (fun r => ctx.loss r ctx.params))),
          reports ++ [(ctx.loss s ctx.params, if ctx.logTrialId then ctx.trialId else curStep)],
          cancels ++ ["scancel " ++ toString ctx.jobId],
          logs ++ [if ce then "cancel-ok" else "cancel-error"],
          reads ++ [cycle]⟩ := by
  simp [pollLoop, hterm, hstep, hp, ha]

/-- Prune without average-on-prune: cancel the job, log the cancel outcome,
and raise `optuna.TrialPruned`. -/
theorem pollLoop_step_prune_abort {V : Type} (ctx : PollCtx V) (ce : Bool)
    (fuel cycle curStep : Nat) (reports : List (ℚ × Nat)) (cancels logs : List String)
    (reads : List Nat) (s : Row) (srest : List Row)
    (hterm : termRowsOf ctx cycle = [])
    (hstep : stepRowsOf ctx cycle curStep = s :: srest)
    (hp : ctx.shouldPrune (reports
        ++ [(ctx.loss s ctx.params, if ctx.logTrialId then ctx.trialId else curStep)]) = true)
    (ha : ctx.avgOnPrune = false) :
    pollLoop ctx ce (fuel + 1) cycle curStep reports cancels logs reads
      = ⟨.err .trialPruned,
          reports ++ [(ctx.loss s ctx.params, if ctx.logTrialId then ctx.trialId else curStep)],
          cancels ++ ["scancel " ++ toString ctx.jobId],
          logs ++ [if ce then "cancel-ok" else "cancel-error"],
          reads ++ [cycle]⟩ := by
  simp [pollLoop, hterm, hstep, hp, ha]

/-- The element at the position right after `l` in `l ++ x :: t` is `x`. -/
theorem get_append_head {α : Type} : ∀ (l : List α) (x : α) (t : List α),
    (l ++ x :: t).get? l.length = some x
  | [], _, _ => rfl
  | _ :: l, x, t => get_append_head l x t

/-- The polling loop only appends to the report history. -/
theorem pollLoop_reports_extend {V : Type} (ctx : PollCtx V) (ce : Bool) :
    ∀ (fuel cycle curStep : Nat) (reports : List (ℚ × Nat)) (cancels logs : List String)
      (reads : List Nat), ∃ t,
      (pollLoop ctx ce fuel cycle curStep reports cancels logs reads).reports
        = reports ++ t := by
  intro fuel
  induction fuel with
  | zero =>
    intro cycle curStep reports cancels logs reads
    exact ⟨[], by simp [pollLoop]⟩
  | succ f ih =>
    intro cycle curStep reports cancels logs reads
    rcases hterm : termRowsOf ctx cycle with _ | ⟨r, rrest⟩
    · rcases hstep : stepRowsOf ctx cycle curStep with _ | ⟨s, srest⟩
      · rw [pollLoop_sleep ctx ce f cycle curStep reports cancels logs reads hstep hterm]
        exact ih (cycle + 1) curStep reports cancels logs (reads ++ [cycle])
      · rcases hp : ctx.shouldPrune (reports
            ++ [(ctx.loss s ctx.params, if ctx.logTrialId then ctx.trialId else curStep)]) with _ | _
        · rw [pollLoop_step_continue ctx ce f cycle curStep reports cancels logs reads s srest
            hterm hstep hp]
          rcases ih (cycle + 1) (curStep + 1)
            (reports ++ [(ctx.loss s ctx.params, if ctx.logTrialId then ctx.trialId else curStep)])
            cancels logs (reads ++ [cycle]) with ⟨t, ht⟩
          exact ⟨_, by rw [ht, List.append_assoc]⟩
        · rcases ha : ctx.avgOnPrune with _ | _
          · rw [pollLoop_step_prune_abort ctx ce f cycle curStep reports cancels logs reads s srest
              hterm hstep hp ha]
            exact ⟨_, rfl⟩
          · rw [pollLoop_step_prune_avg ctx ce f cycle curStep reports cancels logs reads s srest
              hterm hstep hp ha]
            exact ⟨_, rfl⟩
    · rw [pollLoop_term_eq ctx ce f cycle curStep reports cancels logs reads r rrest hterm]
      exact ⟨[], by simp⟩

/-- Every cancel command the polling loop ever runs is `scancel <job_id>`
for the job identifier captured at submission. -/
theorem pollLoop_cancels_all {V : Type} (ctx : PollCtx V) (ce : Bool) :
    ∀ (fuel cycle curStep : Nat) (reports : List (ℚ × Nat)) (cancels logs : List String)
      (reads : List Nat),
      cancels.all (fun c => c == "scancel " ++ toString ctx.jobId) = true →
      ((pollLoop ctx ce fuel cycle curStep reports cancels logs reads).cancels).all
        (fun c => c == "scancel " ++ toString ctx.jobId) = true := by
  intro fuel
  induction fuel with
  | zero =>
    intro cycle curStep reports cancels logs reads hc
    simpa [pollLoop] using hc
  | succ f ih =>
    intro cycle curStep reports cancels logs reads hc
    rcases hterm : termRowsOf ctx cycle with _ | ⟨r, rrest⟩
    · rcases hstep : stepRowsOf ctx cycle curStep with _ | ⟨s, srest⟩
      · rw [pollLoop_sleep ctx ce f cycle curStep reports cancels logs reads hstep hterm]
        exact ih (cycle + 1) curStep reports cancels logs (reads ++ [cycle]) hc
      · rcases hp : ctx.shouldPrune (reports
            ++ [(ctx.loss s ctx.params, if ctx.logTrialId then ctx.trialId else curStep)]) with _ | _
        · rw [pollLoop_step_continue ctx ce f cycle curStep reports cancels logs reads s srest
            hterm hstep hp]
          exact ih (cycle + 1) (curStep + 1)
            (reports ++ [(ctx.loss s ctx.params, if ctx.logTrialId then ctx.trialId else curStep)])
            cancels logs (reads ++ [cycle]) hc
        · rcases ha : ctx.avgOnPrune with _ | _
          · rw [pollLoop_step_prune_abort ctx ce f cycle curStep reports cancels logs reads s srest
              hterm hstep hp ha]
            simp [List.all_append, hc]
          · rw [pollLoop_step_prune_avg ctx ce f cycle curStep reports cancels logs reads s srest
              hterm hstep hp ha]
            simp [List.all_append, hc]
    · rw [pollLoop_term_eq ctx ce f cycle curStep reports cancels logs reads r rrest hterm]
      simpa using hc

/-- The polling loop never produces a submission-phase error: its result is
a returned value, `TrialPruned`, an invalid-parameter error cannot occur
either, or it is still running. -/
theorem pollLoop_no_submission_error {V : Type} (ctx : PollCtx V) (ce : Bool) :
    ∀ (fuel cycle curStep : Nat) (reports : List (ℚ × Nat)) (cancels logs : List String)
      (reads : List Nat),
      (pollLoop ctx ce fuel cycle curStep reports cancels logs reads).result
          ≠ .err .submissionProcessError
      ∧ (pollLoop ctx ce fuel cycle curStep reports cancels logs reads).result
          ≠ .err .matchNoneAttributeError := by
  intro fuel
  induction fuel with
  | zero =>
    intro cycle curStep reports cancels logs reads
    simp [pollLoop]
  | succ f ih =>
    intro cycle curStep reports cancels logs reads
    rcases hterm : termRowsOf ctx cycle with _ | ⟨r, rrest⟩
    · rcases hstep : stepRowsOf ctx cycle curStep with _ | ⟨s, srest⟩
      · rw [pollLoop_sleep ctx ce f cycle curStep reports cancels logs reads hstep hterm]
        exact ih (cycle + 1) curStep reports cancels logs (reads ++ [cycle])
      · rcases hp : ctx.shouldPrune (reports
            ++ [(ctx.loss s ctx.params, if ctx.logTrialId then ctx.trialId else curStep)]) with _ | _
        · rw [pollLoop_step_continue ctx ce f cycle curStep reports cancels logs reads s srest
            hterm hstep hp]
          exact ih (cycle + 1) (curStep + 1)
            (reports ++ [(ctx.loss s ctx.params, if ctx.logTrialId then ctx.trialId else curStep)])
            cancels logs (reads ++ [cycle])
        · rcases ha : ctx.avgOnPrune with _ | _
          · rw [pollLoop_step_prune_abort ctx ce f cycle curStep reports cancels logs reads s srest
              hterm hstep hp ha]
            simp
          · rw [pollLoop_step_prune_avg ctx ce f cycle curStep reports cancels logs reads s srest
              hterm hstep hp ha]
            simp
    · rw [pollLoop_term_eq ctx ce f cycle curStep reports cancels logs reads r rrest hterm]
      simp

/-- Resolution of a spec whose first invalid entry is `bad`: every entry of
`pre` is sampled first (the calls are exactly those of resolving `pre`
alone), then the bare `raise` fires with `bad`'s type string, and nothing
after `bad` is sampled. -/
theorem resolveParams_split {V : Type} (sugg : SuggestCall → V) :
    ∀ (pre : List ParamSpecEntry) (bad : ParamSpecEntry) (post : List ParamSpecEntry),
      (∀ e ∈ pre, (methodFor e.argType).isSome = true) →
      methodFor bad.argType = none →
      resolveParams sugg (pre ++ bad :: post)
        = ((resolveParams sugg pre).1, .error bad.argType) := by
  intro pre
  induction pre with
  | nil =>
    intro bad post _ hbad
    simp [resolveParams, hbad]
  | cons a rest ih =>
    intro bad post hpre hbad
    have ha := hpre a (List.mem_cons_self a rest)
    rcases hm : methodFor a.argType with _ | m
    · rw [hm] at ha
      cases ha
    · have hrest := ih bad post (fun e he => hpre e (List.mem_cons_of_mem a he)) hbad
      simp [resolveParams, hm, hrest, Except.map]

/-- When every entry of a spec has a recognized kind, resolution performs
one suggestion call per entry, in declaration order and under the declared
name. -/
theorem resolveParams_calls_names {V : Type} (sugg : SuggestCall → V) :
    ∀ (pre : List ParamSpecEntry),
      (∀ e ∈ pre, (methodFor e.argType).isSome = true) →
      ((resolveParams sugg pre).1).map (fun c => c.name) = pre.map (fun e => e.name) := by
  intro pre
  induction pre with
  | nil => intro _; rfl
  | cons a rest ih =>
    intro hpre
    have ha := hpre a (List.mem_cons_self a rest)
    rcases hm : methodFor a.argType with _ | m
    · rw [hm] at ha
      cases ha
    · have hrest := ih (fun e he => hpre e (List.mem_cons_of_mem a he))
      simp [resolveParams, hm, mkSuggestCall, hrest]

/-- C1: on every poll cycle, whatever the loop state, if a terminal row
(step = −1) for the trial is present in the snapshot, the engine returns
`loss(termination_data.iloc[0], trial.params)` — even when a row for the
currently expected intermediate step is simultaneously present (no
hypothesis restricts `stepRowsOf`) — and the intermediate row's value is
never reported to the pruning oracle on that cycle: the report, cancel and
log traces are exactly the incoming ones. -/
theorem terminal_precedence_over_step {V : Type} (ctx : PollCtx V) (ce : Bool)
    (fuel cycle curStep : Nat) (reports : List (ℚ × Nat)) (cancels logs : List String)
    (reads : List Nat) (r : Row) (rest : List Row)
    (hterm : termRowsOf ctx cycle = r :: rest) :
    pollLoop ctx ce (fuel + 1) cycle curStep reports cancels logs reads
      = ⟨.ok (ctx.loss r ctx.params), reports, cancels, logs, reads ++ [cycle]⟩ :=
  pollLoop_term_eq ctx ce fuel cycle curStep reports cancels logs reads r rest hterm

/-- Witness for C1 at the spec's scenario: trial 7 with rows
`{step 0, 0.9}` and `{step −1, 0.2}` present at the first poll; the loop
returns 0.2 and the oracle report trace stays empty. -/
theorem terminal_precedence_over_step_witness :
    termRowsOf ctxTrial7 0 = [⟨7, -1, mkRat 1 5⟩]
    ∧ pollLoop ctxTrial7 true 1 0 0 [] [] [] []
        = ⟨.ok (mkRat 1 5), [], [], [], [0]⟩ :=
  ⟨by decide,
   terminal_precedence_over_step ctxTrial7 true 0 0 0 [] [] [] [] ⟨7, -1, mkRat 1 5⟩ [] (by decide)⟩

/-- C9: with duplicate rows for one (trial, step) key the engine is
deterministic: when returning the terminal loss it uses the first terminal
row in file order (`iloc[0]`), and when computing the intermediate value for
the oracle it reports the first current-step row in file order, ignoring the
rest in both cases. -/
theorem first_matching_row_used {V : Type} (ctx : PollCtx V) (ce : Bool)
    (fuel cycle curStep : Nat) (reports : List (ℚ × Nat)) (cancels logs : List String)
    (reads : List Nat) :
    (∀ r rest, termRowsOf ctx cycle = r :: rest →
      (pollLoop ctx ce (fuel + 1) cycle curStep reports cancels logs reads).result
        = .ok (ctx.loss r ctx.params))
    ∧ (∀ s srest, termRowsOf ctx cycle = [] → stepRowsOf ctx cycle curStep = s :: srest →
      ((pollLoop ctx ce (fuel + 1) cycle curStep reports cancels logs reads).reports).get?
          reports.length
        = some (ctx.loss s ctx.params, if ctx.logTrialId then ctx.trialId else curStep)) := by
  constructor
  · intro r rest hterm
    rw [pollLoop_term_eq ctx ce fuel cycle curStep reports cancels logs reads r rest hterm]
  · intro s srest hterm hstep
    rcases hp : ctx.shouldPrune (reports
        ++ [(ctx.loss s ctx.params, if ctx.logTrialId then ctx.trialId else curStep)]) with _ | _
    · rw [pollLoop_step_continue ctx ce fuel cycle curStep reports cancels logs reads s srest
        hterm hstep hp]
      rcases pollLoop_reports_extend ctx ce fuel (cycle + 1) (curStep + 1)
        (reports ++ [(ctx.loss s ctx.params, if ctx.logTrialId then ctx.trialId else curStep)])
        cancels logs (reads ++ [cycle]) with ⟨t, ht⟩
      rw [ht, List.append_assoc]
      exact get_append_head reports _ t
    · rcases ha : ctx.avgOnPrune with _ | _
      · rw [pollLoop_step_prune_abort ctx ce fuel cycle curStep reports cancels logs reads s srest
          hterm hstep hp ha]
        exact get_append_head reports _ []
      · rw [pollLoop_step_prune_avg ctx ce fuel cycle curStep reports cancels logs reads s srest
          hterm hstep hp ha]
        exact get_append_head reports _ []

/-- Witness for C9: with two terminal rows `{0.2, 0.5}` for trial 4 the
engine returns 0.2 (first in file order); with two step-0 rows `{7, 9}` the
value reported to the oracle is 7 (first in file order). -/
theorem first_matching_row_used_witness :
    (pollLoop ctxDupTerm true 1 0 0 [] [] [] []).result = .ok 2
    ∧ (pollLoop ctxDupStep true 1 0 0 [] [] [] []).reports.get? 0 = some (7, 0) :=
  ⟨(first_matching_row_used ctxDupTerm true 0 0 0 [] [] [] []).1
      ⟨4, -1, 2⟩ [⟨4, -1, 5⟩] (by decide),
   (first_matching_row_used ctxDupStep true 0 0 0 [] [] [] []).2
      ⟨4, 0, 7⟩ [⟨4, 0, 9⟩] (by decide) (by decide)⟩

/-- C8: when the pruning oracle says prune and the cancellation command
exits non-zero (`cancelExitZero = false`), the failure is logged
("cancel-error") and evaluation proceeds regardless: the loop still
completes its configured return policy (the averaged value under
average-on-prune, otherwise the `TrialPruned` signal), and the result is
identical to the run in which cancellation succeeded — the cancellation
error never propagates to the caller. -/
theorem cancel_failure_nonfatal {V : Type} (ctx : PollCtx V)
    (fuel cycle curStep : Nat) (reports : List (ℚ × Nat)) (cancels logs : List String)
    (reads : List Nat) (s : Row) (srest : List Row)
    (hterm : termRowsOf ctx cycle = [])
    (hstep : stepRowsOf ctx cycle curStep = s :: srest)
    (hp : ctx.shouldPrune (reports
        ++ [(ctx.loss s ctx.params, if ctx.logTrialId then ctx.trialId else curStep)]) = true) :
    pollLoop ctx false (fuel + 1) cycle curStep reports cancels logs reads
      = ⟨(if ctx.avgOnPrune then
            .ok (listMean ((s :: srest).map (fun r => ctx.loss r ctx.params)))
          else .err .trialPruned),
          reports ++ [(ctx.loss s ctx.params, if ctx.logTrialId then ctx.trialId else curStep)],
          cancels ++ ["scancel " ++ toString ctx.jobId],
          logs ++ ["cancel-error"],
          reads ++ [cycle]⟩
    ∧ (pollLoop ctx false (fuel + 1) cycle curStep reports cancels logs reads).result
        = (pollLoop ctx true (fuel + 1) cycle curStep reports cancels logs reads).result := by
  rcases ha : ctx.avgOnPrune with _ | _
  · rw [pollLoop_step_prune_abort ctx false fuel cycle curStep reports cancels logs reads s srest
      hterm hstep hp ha,
      pollLoop_step_prune_abort ctx true fuel cycle curStep reports cancels logs reads s srest
      hterm hstep hp ha]
    simp [ha]
  · rw [pollLoop_step_prune_avg ctx false fuel cycle curStep reports cancels logs reads s srest
      hterm hstep hp ha,
      pollLoop_step_prune_avg ctx true fuel cycle curStep reports cancels logs reads s srest
      hterm hstep hp ha]
    simp [ha]

/-- Witness for C8: trial 2 pruned at step 0 under average-on-prune with a
failing `scancel`; the loop logs the failure and still returns the averaged
value 3, the same result the successful-cancel run produces. -/
theorem cancel_failure_nonfatal_witness :
    pollLoop ctxPrune false 1 0 0 [] [] [] []
      = ⟨.ok (listMean [3]), [(3, 0)], ["scancel " ++ toString 77], ["cancel-error"], [0]⟩
    ∧ (pollLoop ctxPrune false 1 0 0 [] [] [] []).result
        = (pollLoop ctxPrune true 1 0 0 [] [] [] []).result :=
  cancel_failure_nonfatal ctxPrune 0 0 0 [] [] [] [] ⟨2, 0, 3⟩ [] (by decide) (by decide) rfl

/-- From any loop state: if the trial's terminal row is absent from every
snapshot before cycle `n` and is the head of the terminal filter from cycle
`n` on, and the oracle never prunes, then with enough fuel the loop returns
the terminal row's loss. -/
theorem pollLoop_term_from {V : Type} (ctx : PollCtx V) (ce : Bool) (r : Row) (n : Nat)
    (hnp : ∀ rs, ctx.shouldPrune rs = false)
    (habsent : ∀ m, m < n → termRowsOf ctx m = [])
    (hpresent : ∀ m, n ≤ m → (termRowsOf ctx m).head? = some r) :
    ∀ (fuel cycle curStep : Nat) (reports : List (ℚ × Nat)) (cancels logs : List String)
      (reads : List Nat), n < cycle + fuel → 1 ≤ fuel →
      (pollLoop ctx ce fuel cycle curStep reports cancels logs reads).result
        = .ok (ctx.loss r ctx.params) := by
  intro fuel
  induction fuel with
  | zero =>
    intro cycle curStep reports cancels logs reads _ hf
    exact absurd hf (by omega)
  | succ f ih =>
    intro cycle curStep reports cancels logs reads hlt _
    rcases hterm : termRowsOf ctx cycle with _ | ⟨r0, rrest⟩
    · have hcy : cycle < n := by
        by_contra hc
        have h := hpresent cycle (by omega)
        rw [hterm] at h
        cases h
      have hf1 : 1 ≤ f := by omega
      rcases hstep : stepRowsOf ctx cycle curStep with _ | ⟨s, srest⟩
      · rw [pollLoop_sleep ctx ce f cycle curStep reports cancels logs reads hstep hterm]
        exact ih (cycle + 1) curStep reports cancels logs (reads ++ [cycle]) (by omega) hf1
      · have hp := hnp (reports
          ++ [(ctx.loss s ctx.params, if ctx.logTrialId then ctx.trialId else curStep)])
        rw [pollLoop_step_continue ctx ce f cycle curStep reports cancels logs reads s srest
          hterm hstep hp]
        exact ih (cycle + 1) (curStep + 1)
          (reports ++ [(ctx.loss s ctx.params, if ctx.logTrialId then ctx.trialId else curStep)])
          cancels logs (reads ++ [cycle]) (by omega) hf1
    · have hge : n ≤ cycle := by
        by_contra hc
        have h := habsent cycle (by omega)
        rw [hterm] at h
        cases h
      have h := hpresent cycle hge
      rw [hterm] at h
      simp only [List.head?_cons, Option.some.injEq] at h
      rw [pollLoop_term_eq ctx ce f cycle curStep reports cancels logs reads r0 rrest hterm, h]

/-- C3: if the trial's terminal row (step = −1) is present in the results
store from poll cycle `n` onward (and not before), and the pruning oracle
never interrupts, then the polling loop terminates within `n + 1` poll
cycles and returns `loss(terminal_row, trial.params)`. -/
theorem terminal_row_yields_finite_return {V : Type} (ctx : PollCtx V) (ce : Bool)
    (r : Row) (n fuel : Nat)
    (hnp : ∀ rs, ctx.shouldPrune rs = false)
    (habsent : ∀ m, m < n → termRowsOf ctx m = [])
    (hpresent : ∀ m, n ≤ m → (termRowsOf ctx m).head? = some r)
    (hfuel : n < fuel) :
    (pollLoop ctx ce fuel 0 0 [] [] [] []).result = .ok (ctx.loss r ctx.params) :=
  pollLoop_term_from ctx ce r n hnp habsent hpresent fuel 0 0 [] [] [] []
    (by omega) (by omega)

/-- Witness for C3: trial 5's terminal row (value 7) is present from the
first snapshot on; one poll cycle suffices and the loop returns 7. -/
theorem terminal_row_yields_finite_return_witness :
    (pollLoop ctxTerm5 true 1 0 0 [] [] [] []).result = .ok 7 :=
  terminal_row_yields_finite_return ctxTerm5 true ⟨5, -1, 7⟩ 0 1
    (fun _ => rfl) (fun m hm => absurd hm (Nat.not_lt_zero m)) (fun _ _ => rfl)
    Nat.zero_lt_one

/-- C2 (failing scenario of the claim): trial 3 under average-on-prune with
intermediate losses 0.5 (step 0) and 0.3 (step 1) and the oracle pruning at
step 1. Both losses are reported, the job is cancelled once, but the value
returned is the mean of `loss` over `step_data` — the rows of the pruning
step only — i.e. 0.3, not the mean 0.4 of all intermediate rows observed,
contradicting the claim and the source's own docstring ("the average loss of
the all intermediate steps"). -/
theorem avg_on_prune_uses_only_pruning_step_rows :
    pollLoop ctxTrial3 true 2 0 0 [] [] [] []
      = ⟨.ok (listMean [mkRat 3 10]), [(mkRat 1 2, 0), (mkRat 3 10, 1)],
          ["scancel 42"], ["cancel-ok"], [0, 1]⟩
    ∧ listMean [mkRat 3 10] = mkRat 3 10
    ∧ listMean [mkRat 1 2, mkRat 3 10] = mkRat 2 5
    ∧ mkRat 3 10 ≠ mkRat 2 5 := by
  refine ⟨rfl, ?_, ?_, by decide⟩
  · simp [listMean]
  · simp only [listMean, List.sum_cons, List.sum_nil, List.length_cons, List.length_nil]
    norm_num

/-- C4 (failing input of the claim): the dispatch table's key is the
misspelled string `'categorial'`, so a parameter declared with the kind
`'categorical'` — the spelling the source's own docstring documents — is
treated as invalid and raises before any sampling, while `'int'` and
`'float'` dispatch with their sampling arguments passed through unchanged. -/
theorem categorical_kind_rejected_by_dispatch :
    methodFor "categorical" = none
    ∧ methodFor "categorial" = some .categorical
    ∧ resolveParams suggZero [⟨"p", "categorical", ["a", "b"], [("default", "a")]⟩]
        = ([], .error "categorical")
    ∧ resolveParams suggZero [⟨"p", "int", ["1", "10"], []⟩]
        = ([⟨.int, "p", ["1", "10"], []⟩], .ok [("p", 0)])
    ∧ resolveParams suggZero [⟨"p", "float", ["0.1"], [("log", "True")]⟩]
        = ([⟨.float, "p", ["0.1"], [("log", "True")]⟩], .ok [("p", 0)]) :=
  ⟨rfl, rfl, rfl, rfl, rfl⟩

/-- C5: for a parameter spec containing an unrecognized kind (`bad`, the
first such entry), the objective raises before the submission command is
even built: the outcome is the invalid-parameter error, the submission trace
is empty (no `sbatch` run), no value is reported, no command cancelled, and
the results store is never read; only the entries before `bad` were
sampled. -/
theorem invalid_kind_errors_before_submission {V : Type} (cfg : EngineConfig)
    (loss : Row → List (String × V) → ℚ)
    (pre : List ParamSpecEntry) (bad : ParamSpecEntry) (post : List ParamSpecEntry)
    (sugg : SuggestCall → V) (showV : V → String) (runCmd : String → CmdResult)
    (shouldPrune : List (ℚ × Nat) → Bool) (ce : Bool) (store : Nat → List Row)
    (trialId fuel : Nat)
    (hpre : ∀ e ∈ pre, (methodFor e.argType).isSome = true)
    (hbad : methodFor bad.argType = none) :
    objective cfg loss (pre ++ bad :: post) sugg showV runCmd shouldPrune ce store trialId fuel
      = ⟨.err (.invalidParamType bad.argType), (resolveParams sugg pre).1,
          [], [], [], [], []⟩ := by
  have h := resolveParams_split sugg pre bad post hpre hbad
  simp [objective, h]

/-- Witness for C5: a spec declaring an int parameter and then one of the
unrecognized kind "categorical"; the objective raises the invalid-parameter
error with an empty submission trace and no store reads. -/
theorem invalid_kind_errors_before_submission_witness :
    objective cfgPlain lossValue
        [⟨"a", "int", ["1", "5000"], []⟩, ⟨"b", "categorical", ["x", "y"], []⟩]
        suggZero (fun v => toString v.num) (fun _ => ⟨true, "Submitted batch job 1\n"⟩)
        neverPrune true (fun _ => []) 0 5
      = ⟨.err (.invalidParamType "categorical"),
          [⟨.int, "a", ["1", "5000"], []⟩], [], [], [], [], []⟩ :=
  invalid_kind_errors_before_submission cfgPlain lossValue
    [⟨"a", "int", ["1", "5000"], []⟩] ⟨"b", "categorical", ["x", "y"], []⟩ []
    suggZero (fun v => toString v.num) (fun _ => ⟨true, "Submitted batch job 1\n"⟩)
    neverPrune true (fun _ => []) 0 5 (by decide) (by decide)

/-- C6: when the submission command exits non-zero, or its standard output
does not match the acceptance regex, the objective raises the corresponding
submission-phase error and never enters the polling phase: the results store
is never read, nothing is reported and nothing is cancelled for that
trial. -/
theorem submission_failure_skips_polling {V : Type} (cfg : EngineConfig)
    (loss : Row → List (String × V) → ℚ) (entries : List ParamSpecEntry)
    (sugg : SuggestCall → V) (showV : V → String) (runCmd : String → CmdResult)
    (shouldPrune : List (ℚ × Nat) → Bool) (ce : Bool) (store : Nat → List Row)
    (trialId fuel : Nat) (calls : List SuggestCall) (ps : List (String × V))
    (hres : resolveParams sugg entries = (calls, .ok ps))
    (hfail : (runCmd (sbatchCommand cfg trialId (ps.map (fun p => showV p.2)))).exitZero = false
      ∨ searchSubmit
          ((runCmd (sbatchCommand cfg trialId (ps.map (fun p => showV p.2)))).stdout).toList
        = none) :
    ((objective cfg loss entries sugg showV runCmd shouldPrune ce store trialId fuel).result
        = .err .submissionProcessError
      ∨ (objective cfg loss entries sugg showV runCmd shouldPrune ce store trialId fuel).result
        = .err .matchNoneAttributeError)
    ∧ (objective cfg loss entries sugg showV runCmd shouldPrune ce store trialId fuel).reads = []
    ∧ (objective cfg loss entries sugg showV runCmd shouldPrune ce store trialId fuel).reports = []
    ∧ (objective cfg loss entries sugg showV runCmd shouldPrune ce store trialId fuel).cancels
        = [] := by
  rcases hz : (runCmd (sbatchCommand cfg trialId (ps.map (fun p => showV p.2)))).exitZero with _ | _
  · simp [objective, hres, hz]
  · rcases hfail with h | h
    · rw [hz] at h
      cases h
    · have h' : searchSubmit
          ((runCmd (sbatchCommand cfg trialId (ps.map (fun p => showV p.2)))).stdout).data
          = none := h
      simp [objective, hres, hz, h']

/-- Witness for C6: the scheduler answers with an error message instead of
the acceptance pattern; the objective fails in the submission phase and the
store-read trace is empty even though a terminal row is available. -/
theorem submission_failure_skips_polling_witness :
    ((objective cfgPlain lossValue [] suggZero (fun v => toString v.num)
        (fun _ => ⟨true, "error: invalid partition\n"⟩) neverPrune true
        (fun _ => [⟨0, -1, 7⟩]) 0 5).result = .err .submissionProcessError
      ∨ (objective cfgPlain lossValue [] suggZero (fun v => toString v.num)
        (fun _ => ⟨true, "error: invalid partition\n"⟩) neverPrune true
        (fun _ => [⟨0, -1, 7⟩]) 0 5).result = .err .matchNoneAttributeError)
    ∧ (objective cfgPlain lossValue [] suggZero (fun v => toString v.num)
        (fun _ => ⟨true, "error: invalid partition\n"⟩) neverPrune true
        (fun _ => [⟨0, -1, 7⟩]) 0 5).reads = []
    ∧ (objective cfgPlain lossValue [] suggZero (fun v => toString v.num)
        (fun _ => ⟨true, "error: invalid partition\n"⟩) neverPrune true
        (fun _ => [⟨0, -1, 7⟩]) 0 5).reports = []
    ∧ (objective cfgPlain lossValue [] suggZero (fun v => toString v.num)
        (fun _ => ⟨true, "error: invalid partition\n"⟩) neverPrune true
        (fun _ => [⟨0, -1, 7⟩]) 0 5).cancels = [] :=
  submission_failure_skips_polling cfgPlain lossValue [] suggZero (fun v => toString v.num)
    (fun _ => ⟨true, "error: invalid partition\n"⟩) neverPrune true
    (fun _ => [⟨0, -1, 7⟩]) 0 5 [] [] rfl (Or.inr (by decide))

/-- C7 counterexample: the submission output `Submitted batch job 123`
(no trailing newline) contains the spec's acceptance pattern
`Submitted batch job (\d+)` with captured group 123, yet the source's regex
(which requires a newline after the digits) does not match, so the objective
raises the match-failure error, job identifier 123 is never extracted, and
the trial never proceeds (no reads, no reports, no cancels). -/
theorem spec_regex_match_not_sufficient :
    searchSubmitSpec stdoutNoNewline.toList = some 123
    ∧ searchSubmit stdoutNoNewline.toList = none
    ∧ objective cfgPlain lossValue [] suggZero (fun v => toString v.num)
        (fun _ => ⟨true, stdoutNoNewline⟩) neverPrune true (fun _ => [⟨0, -1, 7⟩]) 0 5
      = ⟨.err .matchNoneAttributeError, [], ["sbatch test.submit results.csv 0 "],
          [], [], [], []⟩ :=
  ⟨rfl, rfl, rfl⟩

/-- C7 amended: the acceptance pattern is `Submitted batch job (\d+)\n` —
the captured digits must be followed by a newline. When submission exits
zero and its stdout matches the source's regex with captured value `j`, the
engine uses `j` as the job identifier for the rest of the trial: the call
proceeds past the submission phase (neither submission-phase error can be
its result) and every cancel command it ever executes is `scancel j`. -/
theorem captured_job_id_used_for_cancel {V : Type} (cfg : EngineConfig)
    (loss : Row → List (String × V) → ℚ) (entries : List ParamSpecEntry)
    (sugg : SuggestCall → V) (showV : V → String) (runCmd : String → CmdResult)
    (shouldPrune : List (ℚ × Nat) → Bool) (ce : Bool) (store : Nat → List Row)
    (trialId fuel : Nat) (calls : List SuggestCall) (ps : List (String × V))
    (s : String) (j : Nat)
    (hres : resolveParams sugg entries = (calls, .ok ps))
    (hrun : runCmd (sbatchCommand cfg trialId (ps.map (fun p => showV p.2))) = ⟨true, s⟩)
    (hmatch : searchSubmit s.toList = some j) :
    (objective cfg loss entries sugg showV runCmd shouldPrune ce store trialId fuel).result
        ≠ .err .submissionProcessError
    ∧ (objective cfg loss entries sugg showV runCmd shouldPrune ce store trialId fuel).result
        ≠ .err .matchNoneAttributeError
    ∧ ((objective cfg loss entries sugg showV runCmd shouldPrune ce store trialId fuel).cancels).all
        (fun c => c == "scancel " ++ toString j) = true := by
  simp only [objective, hres, hrun, hmatch]
  exact ⟨(pollLoop_no_submission_error _ ce fuel 0 0 [] [] [] []).1,
         (pollLoop_no_submission_error _ ce fuel 0 0 [] [] [] []).2,
         pollLoop_cancels_all _ ce fuel 0 0 [] [] [] [] rfl⟩

/-- Witness for C7 amended: stdout `Submitted batch job 123\n`, an oracle
that prunes immediately on trial 0's step-0 row; the only cancel command run
is `scancel 123`. -/
theorem captured_job_id_used_for_cancel_witness :
    (objective cfgPlain lossValue [] suggZero (fun v => toString v.num)
        (fun _ => ⟨true, "Submitted batch job 123\n"⟩) pruneNow true
        (fun _ => [⟨0, 0, 3⟩]) 0 5).result ≠ .err .submissionProcessError
    ∧ (objective cfgPlain lossValue [] suggZero (fun v => toString v.num)
        (fun _ => ⟨true, "Submitted batch job 123\n"⟩) pruneNow true
        (fun _ => [⟨0, 0, 3⟩]) 0 5).result ≠ .err .matchNoneAttributeError
    ∧ ((objective cfgPlain lossValue [] suggZero (fun v => toString v.num)
        (fun _ => ⟨true, "Submitted batch job 123\n"⟩) pruneNow true
        (fun _ => [⟨0, 0, 3⟩]) 0 5).cancels).all
        (fun c => c == "scancel " ++ toString 123) = true :=
  captured_job_id_used_for_cancel cfgPlain lossValue [] suggZero (fun v => toString v.num)
    (fun _ => ⟨true, "Submitted batch job 123\n"⟩) pruneNow true
    (fun _ => [⟨0, 0, 3⟩]) 0 5 [] [] "Submitted batch job 123\n" 123 rfl rfl (by decide)

/-- C10: parameter resolution is not atomic on error. When the entries
before `bad` all have recognized kinds and `bad` does not, resolving
`pre ++ bad :: post` performs exactly the suggestion calls that resolving
`pre` alone performs — the earlier parameters have already been sampled, and
those calls are not undone — then fails with `bad`'s type string; the calls
made are one per earlier entry, in declaration order and under the declared
names. -/
theorem resolution_not_atomic_on_error {V : Type} (sugg : SuggestCall → V)
    (pre : List ParamSpecEntry) (bad : ParamSpecEntry) (post : List ParamSpecEntry)
    (hpre : ∀ e ∈ pre, (methodFor e.argType).isSome = true)
    (hbad : methodFor bad.argType = none) :
    resolveParams sugg (pre ++ bad :: post)
      = ((resolveParams sugg pre).1, .error bad.argType)
    ∧ ((resolveParams sugg pre).1).map (fun c => c.name) = pre.map (fun e => e.name) :=
  ⟨resolveParams_split sugg pre bad post hpre hbad,
   resolveParams_calls_names sugg pre hpre⟩

/-- Witness for C10: two valid entries before a bad kind "enum" and one
valid entry after it; exactly the two earlier entries are sampled, then the
error fires. -/
theorem resolution_not_atomic_on_error_witness :
    resolveParams suggZero
        ([⟨"a", "int", ["1"], []⟩, ⟨"b", "float", ["0"], []⟩]
          ++ ⟨"c", "enum", [], []⟩ :: [⟨"d", "int", [], []⟩])
      = ((resolveParams suggZero [⟨"a", "int", ["1"], []⟩, ⟨"b", "float", ["0"], []⟩]).1,
          .error "enum")
    ∧ ((resolveParams suggZero
          [⟨"a", "int", ["1"], []⟩, ⟨"b", "float", ["0"], []⟩]).1).map (fun c => c.name)
      = [⟨"a", "int", ["1"], []⟩, (⟨"b", "float", ["0"], []⟩ : ParamSpecEntry)].map
          (fun e => e.name) :=
  resolution_not_atomic_on_error suggZero
    [⟨"a", "int", ["1"], []⟩, ⟨"b", "float", ["0"], []⟩] ⟨"c", "enum", [], []⟩
    [⟨"d", "int", [], []⟩] (by decide) (by decide)

end SlurmTuner
